import Mathlib

set_option maxRecDepth 100000

/-!
Verification development for the Universal Dataset Comparison Engine.

This file shallowly embeds the comparison core of the repository:
  * `src/compare/value_comparator.py`  (`compare_values`)
  * `src/compare/hash_comparator.py`   (`_make_row_hash`, `_candidate_pk_detection`,
                                        `_prepare_pk_and_hash`, `compare_datasets`)
  * `src/compare/cell_comparator.py`   (`compare_cells`)
  * `src/normalize/schema_normalizer.py` (`SchemaNormalizer._compare_columns`,
                                          `SchemaNormalizer._normalize_column`)

Modelling conventions:
  * Python scalar cell values are a closed variant `Value`
    (None / bool / int / float / str / datetime), the types produced by the
    row sources consumed by the comparison core.
  * Python `float` arithmetic is modelled exactly over fractions
    (`PyFloat`: an `Int` numerator over a positive `Nat` denominator, compared
    numerically by cross-multiplication); float literals such as `1e-9` are
    modelled by the corresponding fraction.
  * Python dictionaries are association lists with insertion-order iteration
    and position-preserving overwrite, exactly like CPython dicts.
  * Fallible operations that the source wraps in `try/except` are modelled
    as `Option`-valued parsers; the one arithmetic fault point (division) is
    made explicit in an `Except`-valued variant of the comparator.
  * `hashlib.sha256(...).hexdigest()` is implemented bit-faithfully below,
    operating on the UTF-8 bytes of the hashed string.
-/

/-! ### Python string primitives used by the comparator -/

/-- Characters stripped by Python `str.strip()` (ASCII whitespace; the inputs
handled by this code base are ASCII). -/
def pyIsSpace (c : Char) : Bool :=
  c = ' ' || c = '\t' || c = '\n' || c = '\r' || c = '\x0b' || c = '\x0c'

/-- Python `str.strip()`. -/
def pyStrip (s : String) : String :=
  String.mk (((s.data.dropWhile pyIsSpace).reverse.dropWhile pyIsSpace).reverse)

/-- Python `s.replace(",", "")`: removing every comma. -/
def removeCommas (s : String) : String :=
  String.mk (s.data.filter (fun c => c ≠ ','))

/-- Python `str.lower()` (ASCII; the token sets compared against are ASCII). -/
def pyToLower (s : String) : String :=
  String.mk (s.data.map Char.toLower)

/-- Numeric value of a digit string (most significant first). -/
def digitsToNat (ds : List Char) : Nat :=
  ds.foldl (fun a c => a * 10 + (c.toNat - 48)) 0

/-- Split a leading run of decimal digits. -/
def splitDigits (cs : List Char) : List Char × List Char :=
  (cs.takeWhile Char.isDigit, cs.dropWhile Char.isDigit)

/-! ### Exact numeric model of Python floats -/

/-- An exact fraction: numerator `num` over denominator `dpred + 1`.
Keeping the predecessor of the denominator makes every value of the type a
well-formed (positive-denominator) fraction, so theorems quantifying over all
`Value`s never meet a division by a zero denominator that real Python floats
could not exhibit.  Fractions are compared numerically (cross-multiplication),
never structurally, mirroring IEEE value comparison on the decimal values this
pipeline actually handles. -/
structure PyFloat where
  num : Int
  dpred : Nat
deriving DecidableEq, Repr

/-- The (always positive) denominator. -/
def PyFloat.den (q : PyFloat) : Nat := q.dpred + 1

/-- Build a fraction from a numerator and a positive denominator. -/
def mkQ (n : Int) (d : Nat) : PyFloat := ⟨n, d - 1⟩

def qofInt (n : Int) : PyFloat := ⟨n, 0⟩

def qzero : PyFloat := qofInt 0

def qone : PyFloat := qofInt 1

/-- Numeric equality of fractions. -/
def qeqb (a b : PyFloat) : Bool := a.num * (b.den : Int) == b.num * (a.den : Int)

/-- Numeric `≤` on fractions. -/
def qleb (a b : PyFloat) : Bool := a.num * (b.den : Int) ≤ b.num * (a.den : Int)

/-- Numeric `<` on fractions. -/
def qltb (a b : PyFloat) : Bool := a.num * (b.den : Int) < b.num * (a.den : Int)

def qneg (a : PyFloat) : PyFloat := ⟨-a.num, a.dpred⟩

def qadd (a b : PyFloat) : PyFloat :=
  mkQ (a.num * (b.den : Int) + b.num * (a.den : Int)) (a.den * b.den)

def qsub (a b : PyFloat) : PyFloat := qadd a (qneg b)

def qmul (a b : PyFloat) : PyFloat := mkQ (a.num * b.num) (a.den * b.den)

/-- Division (total helper; callers guard the zero case). -/
def qdivRaw (a b : PyFloat) : PyFloat :=
  mkQ (a.num * (b.den : Int) * (if b.num < 0 then -1 else 1)) (a.den * b.num.natAbs)

/-- Python `abs` on floats. -/
def qabs (a : PyFloat) : PyFloat := ⟨(a.num.natAbs : Int), a.dpred⟩

/-- Python `max` of two floats (returns the second argument only when it is
strictly larger, like `b if b > a else a`; ties are numeric so the choice is
value-irrelevant). -/
def qmax (a b : PyFloat) : PyFloat := if qleb b a then a else b

/-- Scale a fraction by `10 ^ e`. -/
def qscale10 (q : PyFloat) (e : Int) : PyFloat :=
  if 0 ≤ e then ⟨q.num * (10 : Int) ^ e.toNat, q.dpred⟩
  else mkQ q.num (q.den * 10 ^ (-e).toNat)

/-- Python `float(s)` on an already-stripped string, as an exact fraction.
Accepts `[+|-] (digits [. digits] | . digits) [(e|E) [+|-] digits]`.
(`inf`/`nan` and PEP-515 underscores are not representable in the exact
model and yield `none`; no claim exercises them.) -/
def parseFloat (s : String) : Option PyFloat :=
  let step1 : Bool × List Char :=
    match s.data with
    | '+' :: r => (false, r)
    | '-' :: r => (true, r)
    | r => (false, r)
  let negated := step1.1
  let (ip, rest1) := splitDigits step1.2
  let step2 : Option (List Char) × List Char :=
    match rest1 with
    | '.' :: r => let p := splitDigits r; (some p.1, p.2)
    | r => (none, r)
  let fp := step2.1
  let rest2 := step2.2
  if ip.isEmpty && (match fp with | some d => d.isEmpty | none => true) then none
  else
    let mant : PyFloat :=
      qadd (qofInt (digitsToNat ip : Int))
        (match fp with
         | some d => mkQ (digitsToNat d : Int) (10 ^ d.length)
         | none => qzero)
    let signed := if negated then qneg mant else mant
    match rest2 with
    | [] => some signed
    | e :: r =>
      if e = 'e' || e = 'E' then
        let step3 : Int × List Char :=
          match r with
          | '+' :: t => (1, t)
          | '-' :: t => (-1, t)
          | t => (1, t)
        let (ed, rest3) := splitDigits step3.2
        if ed.isEmpty || !rest3.isEmpty then none
        else some (qscale10 signed (step3.1 * (digitsToNat ed : Int)))
      else none

/-! ### Python `datetime` model and `datetime.fromisoformat` -/

/-- A naive Python `datetime.datetime` value. -/
structure PyDateTime where
  year : Nat
  month : Nat
  day : Nat
  hour : Nat
  minute : Nat
  second : Nat
  microsecond : Nat
deriving DecidableEq, Repr

/-- Two-digit field of an ISO string. -/
def twoDigits (a b : Char) : Option Nat :=
  if a.isDigit && b.isDigit then some ((a.toNat - 48) * 10 + (b.toNat - 48)) else none

def isLeapYear (y : Nat) : Bool :=
  (y % 4 == 0 && y % 100 != 0) || (y % 400 == 0)

def daysInMonth (y m : Nat) : Nat :=
  if m = 2 then (if isLeapYear y then 29 else 28)
  else if m = 4 || m = 6 || m = 9 || m = 11 then 30
  else 31

/-- Fractional-second part: exactly 3 or 6 digits, as microseconds. -/
def parseFrac (cs : List Char) : Option Nat :=
  if cs.length = 3 && cs.all Char.isDigit then some (digitsToNat cs * 1000)
  else if cs.length = 6 && cs.all Char.isDigit then some (digitsToNat cs)
  else none

/-- `HH[:MM[:SS[.ffffff]]]` part of an ISO-8601 string. -/
def parseTimePart : List Char → Option (Nat × Nat × Nat × Nat)
  | h1 :: h2 :: rest => do
    let h ← twoDigits h1 h2
    match rest with
    | [] => some (h, 0, 0, 0)
    | ':' :: m1 :: m2 :: rest2 => do
      let mi ← twoDigits m1 m2
      match rest2 with
      | [] => some (h, mi, 0, 0)
      | ':' :: s1 :: s2 :: rest3 => do
        let se ← twoDigits s1 s2
        match rest3 with
        | [] => some (h, mi, se, 0)
        | '.' :: fr => do
          let us ← parseFrac fr
          some (h, mi, se, us)
        | _ => none
      | _ => none
    | _ => none
  | _ => none

/-- Python `datetime.fromisoformat`: `YYYY-MM-DD[<sep>HH[:MM[:SS[.fff[fff]]]]]`
with any single separator character, validating calendar ranges.  (Timezone
suffixes are out of the modelled subset and yield `none`.) -/
def fromIso (s : String) : Option PyDateTime :=
  match s.data with
  | y1 :: y2 :: y3 :: y4 :: '-' :: m1 :: m2 :: '-' :: d1 :: d2 :: rest => do
    if !(y1.isDigit && y2.isDigit && y3.isDigit && y4.isDigit) then none
    else do
      let y := digitsToNat [y1, y2, y3, y4]
      let mo ← twoDigits m1 m2
      let dy ← twoDigits d1 d2
      let t ←
        match rest with
        | [] => some (0, 0, 0, 0)
        | _ :: timechars => parseTimePart timechars
      let (h, mi, se, us) := t
      if 1 ≤ y && y ≤ 9999 && 1 ≤ mo && mo ≤ 12 && 1 ≤ dy && dy ≤ daysInMonth y mo
          && h ≤ 23 && mi ≤ 59 && se ≤ 59 then
        some ⟨y, mo, dy, h, mi, se, us⟩
      else none
  | _ => none

/-! ### The scalar value universe and Python semantics on it -/

/-- A Python scalar cell value as produced by the row sources: `None`, `bool`,
`int`, `float` (exact fraction model), `str`, or `datetime.datetime`. -/
inductive Value where
  | vnull
  | vbool (b : Bool)
  | vint (n : Int)
  | vfloat (q : PyFloat)
  | vstr (s : String)
  | vdate (d : PyDateTime)
deriving DecidableEq, Repr

/-- Numeric view used by Python `==` (bool is an int subclass: `True == 1`). -/
def numView : Value → Option PyFloat
  | .vint n => some (qofInt n)
  | .vfloat q => some q
  | .vbool b => some (if b then qone else qzero)
  | _ => none

/-- Python `==` on the value universe (numeric tower compares numerically;
other types compare within their own type and are unequal across types). -/
def pyEq (x y : Value) : Bool :=
  match numView x, numView y with
  | some a, some b => qeqb a b
  | _, _ =>
    match x, y with
    | .vnull, .vnull => true
    | .vstr s, .vstr t => s == t
    | .vdate d, .vdate e => d == e
    | _, _ => false

/-- Smallest exponent `k ≤ 60` such that `q * 10^k` is integral, if any. -/
def termExp (q : PyFloat) : Option Nat :=
  (List.range 61).find? (fun k => (q.num.natAbs * 10 ^ k) % q.den == 0)

/-- Left-pad a string with zeros to width `k`. -/
def padZeros (k : Nat) (s : String) : String :=
  String.mk (List.replicate (k - s.length) '0') ++ s

/-- Python `str(float)` for floats with a short terminating decimal expansion
(the only floats the modelled pipelines stringify); shortest-digits form with
at least one fractional digit, e.g. `"1.0"`, `"0.5"`, `"-2.25"`. -/
def pyFloatStr (q : PyFloat) : String :=
  let sign := if q.num < 0 then "-" else ""
  match termExp q with
  | some 0 => sign ++ toString (q.num.natAbs / q.den) ++ ".0"
  | some k =>
    let n := q.num.natAbs * 10 ^ k / q.den
    let ip := n / 10 ^ k
    let fp := n % 10 ^ k
    sign ++ toString ip ++ "." ++ padZeros k (toString fp)
  | none => sign ++ toString q.num.natAbs ++ "/" ++ toString q.den

def pad2 (n : Nat) : String := padZeros 2 (toString n)

/-- Python `str(datetime)`: `YYYY-MM-DD HH:MM:SS[.ffffff]`. -/
def dateTimeStr (d : PyDateTime) : String :=
  padZeros 4 (toString d.year) ++ "-" ++ pad2 d.month ++ "-" ++ pad2 d.day ++ " "
    ++ pad2 d.hour ++ ":" ++ pad2 d.minute ++ ":" ++ pad2 d.second
    ++ (if d.microsecond = 0 then "" else "." ++ padZeros 6 (toString d.microsecond))

/-- Python `str(v)` for the value universe. -/
def pyStr : Value → String
  | .vnull => "None"
  | .vbool b => if b then "True" else "False"
  | .vint n => toString n
  | .vfloat q => pyFloatStr q
  | .vstr s => s
  | .vdate d => dateTimeStr d

/-! ### value_comparator.py : `compare_values`

Source: `src/compare/value_comparator.py` lines 14-123. -/

/-- `_try_num` (value_comparator.py lines 18-29): lenient numeric parse.
`bool` is explicitly excluded; strings are stripped, the empty string is not
numeric, commas (thousands separators) are removed before parsing. -/
def tryNum : Value → Option PyFloat
  | .vint n => some (qofInt n)
  | .vfloat q => some q
  | .vbool _ => none
  | .vstr s =>
    let t := pyStrip s
    if t = "" then none else parseFloat (removeCommas t)
  | _ => none

/-- `_try_bool` (value_comparator.py lines 31-46): literal booleans, the
numerics 0/1, and the usual true/false token strings (case-insensitive,
stripped). -/
def tryBool : Value → Option Bool
  | .vbool b => some b
  | .vint n => if n = 0 then some false else if n = 1 then some true else none
  | .vfloat q => if qeqb q qzero then some false else if qeqb q qone then some true else none
  | .vstr s =>
    let t := pyToLower (pyStrip s)
    if t = "true" || t = "t" || t = "yes" || t = "1" then some true
    else if t = "false" || t = "f" || t = "no" || t = "0" then some false
    else none
  | _ => none

/-- `_try_date_iso` (value_comparator.py lines 48-60): datetimes pass through,
non-empty stripped strings go through conservative ISO-only parsing. -/
def tryDate : Value → Option PyDateTime
  | .vdate d => some d
  | .vstr s =>
    let t := pyStrip s
    if t = "" then none else fromIso t
  | _ => none

/-- Lightweight type classification (value_comparator.py lines 67-75):
bool, else number, else datetime, else string, else the lowercased Python
type name. -/
def typeClass (v : Value) : String :=
  if (tryBool v).isSome then "bool"
  else if (tryNum v).isSome then "number"
  else if (tryDate v).isSome then "datetime"
  else
    match v with
    | .vstr _ => "string"
    | .vnull => "nonetype"
    | .vbool _ => "bool"
    | .vint _ => "int"
    | .vfloat _ => "float"
    | .vdate _ => "datetime"

/-- Result triple of `compare_values`. -/
structure CompareResult where
  isMatch : Bool
  hasTypeMismatch : Bool
  matchKind : String
deriving DecidableEq, Repr

/-- Floor of a fraction as an integer. -/
def qfloor (q : PyFloat) : Int := q.num.fdiv (q.den : Int)

/-- Python `f"{x:.4f}"` over the exact model (round half to even). -/
def fmt4 (q : PyFloat) : String :=
  let s := qmul q (qofInt 10000)
  let n := qfloor s
  let r2 := 2 * (s.num - n * (s.den : Int))
  let r := if r2 > (s.den : Int) then n + 1
    else if r2 < (s.den : Int) then n
    else if n % 2 = 0 then n else n + 1
  let neg := r < 0 || (r = 0 && q.num < 0)
  let a := r.natAbs
  (if neg then "-" else "") ++ toString (a / 10000) ++ "." ++ padZeros 4 (toString (a % 10000))

/-- Division with the Python fault point explicit: raises `ZeroDivisionError`
when the denominator is (numerically) zero. -/
def qdivGuard (x y : PyFloat) : Except String PyFloat :=
  if y.num = 0 then Except.error "ZeroDivisionError" else Except.ok (qdivRaw x y)

/-- `compare_values` (value_comparator.py lines 14-123), with the single
arithmetic fault point (`rel = abs(n_exp - n_act) / denom`) kept as an
`Except`: every other step of the source either cannot fail or already
catches its own exceptions (`float(...)`, `fromisoformat(...)`, `==`). -/
def compare_values_exc (expected actual : Value) (float_tol : PyFloat) :
    Except String CompareResult :=
  -- both null (line 63)
  if expected = .vnull && actual = .vnull then Except.ok ⟨true, false, "both_null"⟩
  else
    -- detect lightweight types (lines 67-77)
    let mism := typeClass expected != typeClass actual
    -- quick exact equality (lines 80-84)
    if pyEq expected actual then
      Except.ok ⟨true, mism, if mism then "coerced_exact" else "exact"⟩
    else
      let nExp := tryNum expected
      let nAct := tryNum actual
      -- numeric handling (lines 87-94)
      match nExp, nAct with
      | some x, some y =>
        (qdivGuard (qabs (qsub x y)) (qmax (qmax (qabs x) (qabs y)) qone)).bind fun rel =>
          if qleb rel float_tol then Except.ok ⟨true, mism, "numeric_tol"⟩
          else Except.ok ⟨false, mism, "numeric_rel=" ++ fmt4 (qsub qone rel)⟩
      | _, _ =>
        -- bool <-> number equivalence (lines 97-104); the inner conditions
        -- fall through to the later sections when they do not return
        let boolNum1 :=
          match tryBool expected, nAct with
          | some be, some n =>
            (qeqb n qzero || qeqb n qone) && ((be && qeqb n qone) || (!be && qeqb n qzero))
          | _, _ => false
        if boolNum1 then Except.ok ⟨true, true, "coerced_bool_number"⟩
        else
          let boolNum2 :=
            match tryBool actual, nExp with
            | some ba, some n =>
              (qeqb n qzero || qeqb n qone) && ((ba && qeqb n qone) || (!ba && qeqb n qzero))
            | _, _ => false
          if boolNum2 then Except.ok ⟨true, true, "coerced_bool_number"⟩
          else
            -- simple case-insensitive string equality (lines 107-110)
            match expected, actual with
            | .vstr s, .vstr t =>
              if pyToLower (pyStrip s) == pyToLower (pyStrip t) then
                Except.ok ⟨true, mism, "case_insensitive_exact"⟩
              else Except.ok ⟨false, mism, "string_mismatch"⟩
            | _, _ =>
              -- datetime exact or same-day (lines 113-120)
              match tryDate expected, tryDate actual with
              | some d1, some d2 =>
                if d1 == d2 then Except.ok ⟨true, mism, "datetime_exact"⟩
                else if (d1.year, d1.month, d1.day) == (d2.year, d2.month, d2.day) then
                  Except.ok ⟨true, mism, "datetime_same_day"⟩
                else Except.ok ⟨false, mism, "datetime_mismatch"⟩
              | _, _ => Except.ok ⟨false, mism, "mismatch"⟩

/-- Pure projection of `compare_values` (the error branch is unreachable,
which is exactly the content of the C9 theorem below). -/
def compare_values (expected actual : Value) (float_tol : PyFloat) : CompareResult :=
  match compare_values_exc expected actual float_tol with
  | .ok r => r
  | .error _ => ⟨false, false, "unreachable"⟩

/-- The default tolerance `float_tol=1e-9`. -/
def defaultTol : PyFloat := mkQ 1 1000000000

/-! ### SHA-256 (hashlib.sha256(...).hexdigest())

A direct implementation of FIPS 180-4 over `Nat` with explicit `% 2^32`
reductions, producing the lowercase hex digest exactly as
`hashlib.sha256(data).hexdigest()` does. -/

/-- UTF-8 encoding of one code point. -/
def utf8Char (n : Nat) : List Nat :=
  if n < 0x80 then [n]
  else if n < 0x800 then [0xC0 ||| (n >>> 6), 0x80 ||| (n &&& 0x3F)]
  else if n < 0x10000 then
    [0xE0 ||| (n >>> 12), 0x80 ||| ((n >>> 6) &&& 0x3F), 0x80 ||| (n &&& 0x3F)]
  else
    [0xF0 ||| (n >>> 18), 0x80 ||| ((n >>> 12) &&& 0x3F), 0x80 ||| ((n >>> 6) &&& 0x3F),
      0x80 ||| (n &&& 0x3F)]

/-- Python `s.encode("utf-8")`. -/
def utf8Bytes (s : String) : List Nat :=
  (s.data.map (fun c => utf8Char c.toNat)).flatten

def M32 : Nat := 4294967296

def rotr32 (n x : Nat) : Nat := ((x >>> n) ||| (x <<< (32 - n))) % M32

def shaCh (x y z : Nat) : Nat := (x &&& y) ^^^ ((x ^^^ 0xFFFFFFFF) &&& z)

def shaMaj (x y z : Nat) : Nat := (x &&& y) ^^^ (x &&& z) ^^^ (y &&& z)

def bigSigma0 (x : Nat) : Nat := rotr32 2 x ^^^ rotr32 13 x ^^^ rotr32 22 x

def bigSigma1 (x : Nat) : Nat := rotr32 6 x ^^^ rotr32 11 x ^^^ rotr32 25 x

def smallSigma0 (x : Nat) : Nat := rotr32 7 x ^^^ rotr32 18 x ^^^ (x >>> 3)

def smallSigma1 (x : Nat) : Nat := rotr32 17 x ^^^ rotr32 19 x ^^^ (x >>> 10)

/-- The 64 SHA-256 round constants (FIPS 180-4 section 4.2.2), in decimal. -/
def shaK : List Nat :=
  [1116352408, 1899447441, 3049323471, 3921009573, 961987163,
   1508970993, 2453635748, 2870763221, 3624381080, 310598401,
   607225278, 1426881987, 1925078388, 2162078206, 2614888103,
   3248222580, 3835390401, 4022224774, 264347078, 604807628,
   770255983, 1249150122, 1555081692, 1996064986, 2554220882,
   2821834349, 2952996808, 3210313671, 3336571891, 3584528711,
   113926993, 338241895, 666307205, 773529912, 1294757372,
   1396182291, 1695183700, 1986661051, 2177026350, 2456956037,
   2730485921, 2820302411, 3259730800, 3345764771, 3516065817,
   3600352804, 4094571909, 275423344, 430227734, 506948616,
   659060556, 883997877, 958139571, 1322822218, 1537002063,
   1747873779, 1955562222, 2024104815, 2227730452, 2361852424,
   2428436474, 2756734187, 3204031479, 3329325298]

/-- The initial hash value (FIPS 180-4 section 5.3.3), in decimal. -/
def shaH0 : List Nat :=
  [1779033703, 3144134277, 1013904242, 2773480762, 1359893119,
   2600822924, 528734635, 1541459225]

/-- Merkle–Damgård padding: `0x80`, zeros to 56 mod 64, 8-byte big-endian
bit length. -/
def shaPad (msg : List Nat) : List Nat :=
  let l := msg.length
  let bits := l * 8
  let zeros := (120 - ((l + 1) % 64)) % 64
  msg ++ [0x80] ++ List.replicate zeros 0
    ++ (List.range 8).map (fun i => (bits >>> ((7 - i) * 8)) &&& 0xFF)

/-- Big-endian 32-bit words from bytes. -/
def bytesToWords : List Nat → List Nat
  | a :: b :: c :: d :: rest =>
    ((a <<< 24) ||| (b <<< 16) ||| (c <<< 8) ||| d) :: bytesToWords rest
  | _ => []

/-- Message schedule: extend 16 words to 64. -/
def shaSchedule (ws : List Nat) : Array Nat :=
  (List.range 48).foldl
    (fun w _ =>
      let t := w.size
      w.push ((smallSigma1 (w.getD (t - 2) 0) + w.getD (t - 7) 0
        + smallSigma0 (w.getD (t - 15) 0) + w.getD (t - 16) 0) % M32))
    ws.toArray

/-- One round of the compression function on the 8-register state. -/
def shaRound (kt wt : Nat) (st : List Nat) : List Nat :=
  match st with
  | [a, b, c, d, e, f, g, h] =>
    let t1 := (h + bigSigma1 e + shaCh e f g + kt + wt) % M32
    let t2 := (bigSigma0 a + shaMaj a b c) % M32
    [(t1 + t2) % M32, a, b, c, (d + t1) % M32, e, f, g]
  | st => st

/-- Process one 512-bit block. -/
def shaBlock (h : List Nat) (blockBytes : List Nat) : List Nat :=
  let w := shaSchedule (bytesToWords blockBytes)
  let st := (List.range 64).foldl
    (fun st t => shaRound (shaK.getD t 0) (w.getD t 0) st) h
  (h.zip st).map (fun p => (p.1 + p.2) % M32)

/-- Split a list into 64-byte blocks (structural fuel recursion so that the
kernel evaluates it; the fuel is always sufficient at the call site since
every step consumes at least one element). -/
def shaBlocksGo : Nat → List Nat → List (List Nat)
  | 0, _ => []
  | _, [] => []
  | fuel + 1, l => (l.take 64) :: shaBlocksGo fuel (l.drop 64)

/-- Split a padded message into 64-byte blocks. -/
def shaBlocks (l : List Nat) : List (List Nat) := shaBlocksGo (l.length + 1) l

def hexChar (n : Nat) : Char :=
  if n < 10 then Char.ofNat (48 + n) else Char.ofNat (87 + n)

/-- Lowercase 8-hex-digit rendering of a 32-bit word. -/
def hex8 (w : Nat) : String :=
  String.mk ((List.range 8).map (fun i => hexChar ((w >>> ((7 - i) * 4)) &&& 15)))

/-- `hashlib.sha256(bytes).hexdigest()`. -/
def sha256hexBytes (msg : List Nat) : String :=
  String.join (((shaBlocks (shaPad msg)).foldl shaBlock shaH0).map hex8)

/-- `hashlib.sha256(s.encode("utf-8")).hexdigest()`. -/
def sha256hex (s : String) : String := sha256hexBytes (utf8Bytes s)

/-! ### Rows, datasets and association-list dictionaries

A `Row` is one polars `to_dicts()` row: an insertion-ordered map from column
names to values.  A `Chunk` is one DataFrame from `get_data_iterator`; a
`Dataset` is the chunk stream of one adapter.  CPython dicts are modelled as
association lists with position-preserving overwrite. -/

abbrev Row : Type := List (String × Value)

abbrev Chunk : Type := List Row

abbrev Dataset : Type := List Chunk

/-- Dictionary lookup (`d.get(k)` / `d[k]`). -/
def alookup {α : Type} (k : String) : List (String × α) → Option α
  | [] => none
  | (k', v) :: t => if k' = k then some v else alookup k t

/-- Dictionary store `d[k] = v`: overwrites in place, appends new keys at the
end (CPython dict semantics). -/
def dinsert {α : Type} (k : String) (v : α) : List (String × α) → List (String × α)
  | [] => [(k, v)]
  | (k', v') :: t => if k' = k then (k, v) :: t else (k', v') :: dinsert k v t

/-- Lexicographic code-point `≤` on character lists (Python's string order). -/
def charsLe : List Char → List Char → Bool
  | [], _ => true
  | _ :: _, [] => false
  | a :: as, b :: bs =>
    if a.toNat = b.toNat then charsLe as bs else decide (a.toNat < b.toNat)

/-- Python's `≤` on strings (code-point lexicographic). -/
def pyStrLe (s t : String) : Bool := charsLe s.data t.data

/-- Insertion step of insertion sort w.r.t. the code-point order on strings
(Python's string comparison). -/
def insertSorted (s : String) : List String → List String
  | [] => [s]
  | t :: r => if pyStrLe s t then s :: t :: r else t :: insertSorted s r

/-- Python `sorted(...)` on strings. -/
def sortStrings (l : List String) : List String := l.foldr insertSorted []

/-- Python `"|".join(parts)`. -/
def joinBar : List String → String
  | [] => ""
  | [s] => s
  | s :: rest => s ++ "|" ++ joinBar rest

/-! ### hash_comparator.py -/

/-- `str(v)` with the `"NULL"` sentinel for `None`, as used by both row-key
construction and digesting. -/
def strOrNULL (v : Value) : String :=
  match v with
  | .vnull => "NULL"
  | v => pyStr v

/-- Column names of a row, in insertion order. -/
def rowCols (r : Row) : List String := r.map Prod.fst

/-- The string serialised by `_make_row_hash` (hash_comparator.py lines 11-18):
values in sorted-column-name order, `"NULL"` for nulls, joined with `"|"`.
(`row[k]` cannot miss since `k` ranges over the row's own keys; the `getD` is
for totality only.) -/
def serializeRow (r : Row) : String :=
  joinBar ((sortStrings (rowCols r)).map (fun k => strOrNULL ((alookup k r).getD .vnull)))

/-- `_make_row_hash` (hash_comparator.py lines 6-19). -/
def make_row_hash (r : Row) : String := sha256hex (serializeRow r)

/-- Number of distinct elements of a list (polars `n_unique` / `unique()`
row count). -/
def distinctCount {β : Type} [DecidableEq β] (l : List β) : Nat :=
  (l.foldl (fun acc x => if acc.contains x then acc else x :: acc) []).length

/-- Column list of a polars chunk.  polars frames carry a uniform schema; in
this row-level model it is read off the first row (the chunks handled by the
theorems are nonempty and uniform). -/
def chunkCols (df : Chunk) : List String := (df.headD []).map Prod.fst

/-- Inner loop of the two-column combination search of
`_candidate_pk_detection` (hash_comparator.py lines 36-41): first pair
`(cols[i], cols[j])`, `i < j`, both indices ascending, whose joint values are
unique over the sample. -/
def findPairPk (sub : Chunk) (n : Nat) : List String → Option (List String)
  | [] => none
  | c :: rest =>
    match rest.find? (fun d =>
        distinctCount (sub.map (fun r => (alookup c r, alookup d r))) == n) with
    | some d => some [c, d]
    | none => findPairPk sub n rest

/-- `_candidate_pk_detection` (hash_comparator.py lines 22-43): on a sample of
at most 10000 rows, first single column with all-distinct values, else first
column pair with all-distinct value pairs, else `none`. -/
def candidate_pk_detection (df : Chunk) : Option (List String) :=
  let n := min df.length 10000
  let sub := df.take n
  let cols := chunkCols df
  match cols.find? (fun c => distinctCount (sub.map (fun r => alookup c r)) == n) with
  | some c => some [c]
  | none => findPairPk sub n cols

/-- Row-key construction (hash_comparator.py line 70 and cell_comparator.py
lines 27, 34): pk column values stringified in declared order with the
`"NULL"` sentinel, joined with `"|"`.  (A missing pk column would raise
`KeyError` in the source; the theorems below only use rows carrying their pk
columns, and the model maps that impossible case to the null sentinel.) -/
def rowKey (pk : List String) (r : Row) : String :=
  joinBar (pk.map (fun c => strOrNULL ((alookup c r).getD .vnull)))

/-- Digest-keyed fallback insertion (hash_comparator.py lines 61-66):
`mapping[row_hash] = row_hash` for every row of the chunk. -/
def insertDigests (acc : List (String × String)) (df : Chunk) : List (String × String) :=
  df.foldl (fun m r => dinsert (make_row_hash r) (make_row_hash r) m) acc

/-- Pk-keyed insertion (hash_comparator.py lines 68-73):
`mapping[pk_val] = row_hash` for every row of the chunk. -/
def insertByPk (pk : List String) (acc : List (String × String)) (df : Chunk) :
    List (String × String) :=
  df.foldl (fun m r => dinsert (rowKey pk r) (make_row_hash r) m) acc

/-- Chunk loop of `_prepare_pk_and_hash` (hash_comparator.py lines 53-75).
The `Option (List String)` state is the mutable `pk_cols` local: as long as it
is `none`, detection is re-attempted on each incoming chunk; a failed chunk is
keyed by row digests and the loop continues. -/
def prepareGo :
    Option (List String) → List (String × String) → Nat → Dataset →
      List (String × String) × Nat
  | _, acc, total, [] => (acc, total)
  | none, acc, total, df :: rest =>
    match candidate_pk_detection df with
    | none => prepareGo none (insertDigests acc df) (total + df.length) rest
    | some pk => prepareGo (some pk) (insertByPk pk acc df) (total + df.length) rest
  | some pk, acc, total, df :: rest =>
    prepareGo (some pk) (insertByPk pk acc df) (total + df.length) rest

/-- `_prepare_pk_and_hash` (hash_comparator.py lines 46-75): returns the
key→digest mapping and the total row count. -/
def prepare_pk_and_hash (pkCols : Option (List String)) (ds : Dataset) :
    List (String × String) × Nat :=
  prepareGo pkCols [] 0 ds

/-- Summary block of the reconciliation result (exact, untruncated counts). -/
structure RecSummary where
  rows_a : Nat
  rows_b : Nat
  missing_in_b : Nat
  extra_in_b : Nat
  changed : Nat
deriving DecidableEq, Repr

/-- Detail block of the reconciliation result (truncated key samples). -/
structure RecDetails where
  missing_in_b : List String
  extra_in_b : List String
  changed : List String
deriving DecidableEq, Repr

/-- Full return value of `compare_datasets`. -/
structure RecResult where
  summary : RecSummary
  details : RecDetails
deriving DecidableEq, Repr

/-- `sorted(keys_a - keys_b)` (hash_comparator.py line 96). -/
def missingExact (ma mb : List (String × String)) : List String :=
  sortStrings ((ma.map Prod.fst).filter (fun k => (alookup k mb).isNone))

/-- `sorted(keys_b - keys_a)` (hash_comparator.py line 97). -/
def extraExact (ma mb : List (String × String)) : List String :=
  sortStrings ((mb.map Prod.fst).filter (fun k => (alookup k ma).isNone))

/-- `[k for k in keys_a & keys_b if map_a[k] != map_b[k]]` (hash_comparator.py
line 100).  CPython iterates `keys_a & keys_b` in hash order, which is
unspecified (string hashing is randomised per process); the model
determinises it as the insertion order of `map_a`, one realisable order.  In
particular the source applies no sort to this list, unlike lines 96-97. -/
def changedExact (ma mb : List (String × String)) : List String :=
  (ma.map Prod.fst).filter
    (fun k => (alookup k mb).isSome && alookup k ma != alookup k mb)

/-- `compare_datasets` (hash_comparator.py lines 78-116). -/
def compare_datasets (A B : Dataset) (pkCols : Option (List String)) : RecResult :=
  let pa := prepare_pk_and_hash pkCols A
  let pb := prepare_pk_and_hash pkCols B
  let missing := missingExact pa.1 pb.1
  let extra := extraExact pa.1 pb.1
  let changed := changedExact pa.1 pb.1
  { summary := ⟨pa.2, pb.2, missing.length, extra.length, changed.length⟩
    -- details are samples only: `[:100]` (lines 110-114)
    details := ⟨missing.take 100, extra.take 100, changed.take 100⟩ }

/-- The changed classification in sorted key order, following the
specification's words ("the first 100 entries in sorted key order") — for
comparison against what `compare_datasets` actually returns. -/
def specSortedChanged (A B : Dataset) (pkCols : Option (List String)) : List String :=
  sortStrings (changedExact (prepare_pk_and_hash pkCols A).1 (prepare_pk_and_hash pkCols B).1)

/-! ### cell_comparator.py -/

/-- One emitted cell difference `{"column": ..., "a": ..., "b": ...}`. -/
structure CellDifference where
  column : String
  a : Value
  b : Value
deriving DecidableEq, Repr

/-- Row-retention scan of `compare_cells` (cell_comparator.py lines 24-36):
stream every chunk, keep full rows whose pk value is in the changed set. -/
def buildRowMap (pk pks : List String) (ds : Dataset) : List (String × Row) :=
  ds.foldl
    (fun m df =>
      df.foldl
        (fun m r =>
          let kv := rowKey pk r
          if pks.contains kv then dinsert kv r m else m)
        m)
    []

/-- Per-row column loop of `compare_cells` (cell_comparator.py lines 45-50):
iterate the **A-side** row's columns, compare with raw Python `!=` against
`row_b.get(col)` (absent → `None`). -/
def cellRowDiffs (ra rb : Row) : List CellDifference :=
  (ra.map Prod.fst).filterMap (fun col =>
    let va := (alookup col ra).getD .vnull
    let vb := (alookup col rb).getD .vnull
    if pyEq va vb then none else some ⟨col, va, vb⟩)

/-- Key loop of `compare_cells` (cell_comparator.py lines 39-53): keys absent
from either re-scanned map are skipped; rows with a non-empty difference list
are emitted in changed-key order. -/
def processChangedKeys (ma mb : List (String × Row)) :
    List String → List (String × List CellDifference)
  | [] => []
  | pk :: rest =>
    match alookup pk ma, alookup pk mb with
    | some ra, some rb =>
      let ds := cellRowDiffs ra rb
      if ds.isEmpty then processChangedKeys ma mb rest
      else (pk, ds) :: processChangedKeys ma mb rest
    | _, _ => processChangedKeys ma mb rest

/-- `compare_cells` (cell_comparator.py lines 5-55). -/
def compare_cells (A B : Dataset) (pkCols differingPks : List String) :
    List (String × List CellDifference) :=
  processChangedKeys (buildRowMap pkCols differingPks A) (buildRowMap pkCols differingPks B)
    differingPks

/-! ### schema_normalizer.py -/

/-- The tri-state nullable flag of a normalised column: `True`, `False`, or
the literal string `"unknown"`. -/
inductive NullTri where
  | tru
  | fls
  | unk
deriving DecidableEq, Repr

/-- Python truthiness of the tri-state value: `True` and the non-empty string
`"unknown"` are truthy, `False` is falsy. -/
def triTruthy : NullTri → Bool
  | .tru => true
  | .fls => false
  | .unk => true

/-- Python `str(...)` of the tri-state value (as interpolated into finding
messages). -/
def triStr : NullTri → String
  | .tru => "True"
  | .fls => "False"
  | .unk => "unknown"

/-- The raw `nullable` entry of an adapter schema column: a bool, a string,
or absent. -/
inductive RawNullable where
  | rbool (b : Bool)
  | rstr (s : String)
  | rmissing
deriving DecidableEq, Repr

/-- Nullable normalisation of `_normalize_column` (schema_normalizer.py lines
66-69): default `"unknown"`; strings map `"true"`/`"false"`
(case-insensitively) to booleans and anything else to `"unknown"`. -/
def normalizeNullable : RawNullable → NullTri
  | .rbool b => if b then .tru else .fls
  | .rstr s =>
    if pyToLower s = "true" then .tru
    else if pyToLower s = "false" then .fls
    else .unk
  | .rmissing => .unk

/-- Canonical-type metadata of a normalised column. -/
structure ColMeta where
  precision : Option Nat
  scale : Option Nat
  length : Option Nat
  bits : Option Nat
  timezone : Option String
deriving DecidableEq, Repr

def emptyMeta : ColMeta := ⟨none, none, none, none, none⟩

/-- A normalised column as produced by `_normalize_column`. -/
structure NormColumn where
  name : String
  type : String
  nullable : NullTri
  metadata : ColMeta
deriving DecidableEq, Repr

/-- One `_msg(severity, code, message, col)` finding. -/
structure SchemaFinding where
  severity : String
  code : String
  message : String
  column : String
deriving DecidableEq, Repr

/-- Python truthiness filter on optional numeric metadata: the checks
`m1.get(k) and m2.get(k)` treat both absence and `0` as falsy. -/
def truthyNat : Option Nat → Option Nat
  | some n => if n = 0 then none else some n
  | none => none

/-- Python `f"...{v}..."` of an optional string (`None` renders as "None"). -/
def fmtOptStr : Option String → String
  | some s => s
  | none => "None"

/-- Nullable-drift check (schema_normalizer.py lines 163-165):
`sev = "error" if a["nullable"] and not b["nullable"] else "warning"`. -/
def nullabilityFindings (a b : NormColumn) : List SchemaFinding :=
  if a.nullable ≠ b.nullable then
    [⟨if triTruthy a.nullable && !triTruthy b.nullable then "error" else "warning",
      "NULLABILITY_CHANGE",
      a.name ++ " nullability " ++ triStr a.nullable ++ " -> " ++ triStr b.nullable,
      a.name⟩]
  else []

/-- STRING truncation check (schema_normalizer.py lines 168-170). -/
def stringFindings (a b : NormColumn) : List SchemaFinding :=
  if a.type = "STRING" then
    match truthyNat a.metadata.length, truthyNat b.metadata.length with
    | some l1, some l2 =>
      if l2 < l1 then
        [⟨"error", "STRING_TRUNCATION",
          a.name ++ " length " ++ toString l1 ++ " -> " ++ toString l2, a.name⟩]
      else []
    | _, _ => []
  else []

/-- DECIMAL precision/scale loss checks (schema_normalizer.py lines 173-177),
checked independently. -/
def decimalFindings (a b : NormColumn) : List SchemaFinding :=
  if a.type = "DECIMAL" then
    (match truthyNat a.metadata.precision, truthyNat b.metadata.precision with
     | some p1, some p2 =>
       if p2 < p1 then
         [⟨"error", "DECIMAL_PRECISION_LOSS",
           a.name ++ " precision " ++ toString p1 ++ " -> " ++ toString p2, a.name⟩]
       else []
     | _, _ => []) ++
    (match truthyNat a.metadata.scale, truthyNat b.metadata.scale with
     | some s1, some s2 =>
       if s2 < s1 then
         [⟨"error", "DECIMAL_SCALE_LOSS",
           a.name ++ " scale " ++ toString s1 ++ " -> " ++ toString s2, a.name⟩]
       else []
     | _, _ => [])
  else []

/-- INT width-reduction check (schema_normalizer.py lines 180-182). -/
def intFindings (a b : NormColumn) : List SchemaFinding :=
  if a.type = "INT" then
    match truthyNat a.metadata.bits, truthyNat b.metadata.bits with
    | some b1, some b2 =>
      if b2 < b1 then
        [⟨"error", "INT_WIDTH_LOSS",
          a.name ++ " " ++ toString b1 ++ "-bit -> " ++ toString b2 ++ "-bit", a.name⟩]
      else []
    | _, _ => []
  else []

/-- TIMESTAMP timezone check (schema_normalizer.py lines 185-186). -/
def tzFindings (a b : NormColumn) : List SchemaFinding :=
  if a.type = "TIMESTAMP" && a.metadata.timezone ≠ b.metadata.timezone then
    [⟨"warning", "TIMEZONE_CHANGE",
      a.name ++ " tz " ++ fmtOptStr a.metadata.timezone ++ " -> "
        ++ fmtOptStr b.metadata.timezone, a.name⟩]
  else []

/-- `SchemaNormalizer._compare_columns` (schema_normalizer.py lines 150-188):
a canonical-type mismatch short-circuits; otherwise the nullable, STRING,
DECIMAL, INT and TIMESTAMP checks append findings in that fixed order. -/
def compare_columns (a b : NormColumn) : List SchemaFinding :=
  if a.type ≠ b.type then
    [⟨"error", "TYPE_MISMATCH", a.name ++ ": " ++ a.type ++ " vs " ++ b.type, a.name⟩]
  else
    nullabilityFindings a b ++ stringFindings a b ++ decimalFindings a b
      ++ intFindings a b ++ tzFindings a b


/-- The string order as a proposition (for sortedness statements). -/
def StrLe (s t : String) : Prop := pyStrLe s t = true


/-- All rows of a dataset, across chunk boundaries, in stream order. -/
def rowsOf (ds : Dataset) : List Row := ds.flatten

/-- Emptiness of a reconciliation result: all three detail lists empty and
all three difference counts zero. -/
def emptyRec (r : RecResult) : Prop :=
  r.details.missing_in_b = [] ∧ r.details.extra_in_b = [] ∧ r.details.changed = []
    ∧ r.summary.missing_in_b = 0 ∧ r.summary.extra_in_b = 0 ∧ r.summary.changed = 0

/-! ### Concrete instances used by counterexamples and witnesses -/

/-- A two-column row `{id: i, name: nm}`. -/
def rowIdName (i : Int) (nm : String) : Row := [("id", .vint i), ("name", .vstr nm)]

/-- Dataset A of the specification's §8 end-to-end example. -/
def exampleA : Dataset := [[rowIdName 1 "Alice", rowIdName 2 "Bob"]]

/-- Dataset B of the specification's §8 end-to-end example. -/
def exampleB : Dataset := [[rowIdName 1 "Alice", rowIdName 2 "bob"]]

/-- A chunk of two identical rows: no single column and no column pair is
unique, so candidate-key detection fails on it. -/
def dupRow : Row := [("a", .vint 1), ("b", .vint 1)]

def noKeyChunk : Chunk := [dupRow, dupRow]

/-- A one-row chunk on the same columns: detection trivially succeeds. -/
def laterChunk : Chunk := [[("a", .vint 1), ("b", .vint 0)]]

/-- A two-chunk dataset whose first chunk defeats key detection and whose
second chunk admits it. -/
def twoPhaseData : Dataset := [noKeyChunk, laterChunk]

/-- One-column-keyed row `{k: key, v: value}`. -/
def kvRow (k : String) (v : Int) : Row := [("k", .vstr k), ("v", .vint v)]

/-- Rows keyed `"z"`, `"a"` — insertion order deliberately out of sorted
order. -/
def unsortedA : Dataset := [[kvRow "z" 0, kvRow "a" 0]]

def unsortedB : Dataset := [[kvRow "z" 1, kvRow "a" 1]]

/-- A-side row of the C7 counterexample: only the key column. -/
def c7RowA : Row := [("id", .vint 1)]

/-- B-side row of the C7 counterexample: an extra column `x`. -/
def c7RowB : Row := [("id", .vint 1), ("x", .vint 5)]

/-- Source column of the C8 counterexample: nullable normalises to
`"unknown"`. -/
def srcColUnknown : NormColumn := ⟨"c", "STRING", normalizeNullable (.rstr "unknown"), emptyMeta⟩

/-- Destination column of the C8 counterexample: nullable `False`. -/
def dstColFalse : NormColumn := ⟨"c", "STRING", normalizeNullable (.rbool false), emptyMeta⟩

/-! ### Sanity checks (the source's own smoke tests and §8 probes) -/

theorem sanity_compare_30 :
    compare_values (.vstr "30") (.vint 30) defaultTol = ⟨true, false, "numeric_tol"⟩ := by
  decide

theorem sanity_compare_null :
    compare_values .vnull .vnull defaultTol = ⟨true, false, "both_null"⟩ := by decide

theorem sanity_compare_true_one :
    compare_values (.vbool true) (.vint 1) defaultTol = ⟨true, false, "exact"⟩ := by decide

theorem sanity_compare_hello :
    (compare_values (.vstr "Hello") (.vstr " hello ") defaultTol).isMatch = true := by decide

theorem sanity_compare_tolerance_inside :
    compare_values (.vfloat (mkQ 100 1)) (.vfloat (mkQ 10000000005 100000000)) (mkQ 1 1000000)
      = ⟨true, false, "numeric_tol"⟩ := by decide

theorem sanity_compare_tolerance_outside :
    (compare_values (.vfloat (mkQ 100 1)) (.vfloat (mkQ 101 1)) (mkQ 1 1000000)).isMatch
      = false := by decide

theorem sanity_compare_case_insensitive :
    compare_values (.vstr "Bob") (.vstr "bob") defaultTol
      = ⟨true, false, "case_insensitive_exact"⟩ := by decide

/-- Sanity anchor for the hash implementation: the FIPS 180-4 test vector
for the message `"abc"`. -/
theorem sha256_test_vector_abc :
    sha256hex "abc" = "ba7816bf8f01cfea414140de5dae2223b00361a396177a9cb410ff61f20015ad" := by
  decide


/-! ### Order lemmas for the code-point string order -/

theorem uint32_toNat_inj {a b : UInt32} (h : a.toNat = b.toNat) : a = b := by
  cases a; cases b
  simp only [UInt32.toNat] at h
  congr 1
  exact BitVec.eq_of_toNat_eq h

theorem charToNat_inj {a b : Char} (h : a.toNat = b.toNat) : a = b := by
  apply Char.eq_of_val_eq
  exact uint32_toNat_inj h

theorem charsLe_total : ∀ (a b : List Char), charsLe a b = true ∨ charsLe b a = true
  | [], _ => Or.inl rfl
  | _ :: _, [] => Or.inr rfl
  | a :: as, b :: bs => by
    by_cases h : a.toNat = b.toNat
    · rcases charsLe_total as bs with ih | ih
      · exact Or.inl (by simp [charsLe, h, ih])
      · exact Or.inr (by simp [charsLe, h.symm, ih])
    · rcases Nat.lt_or_ge a.toNat b.toNat with hlt | hge
      · exact Or.inl (by simp [charsLe, h, hlt])
      · have hne : b.toNat ≠ a.toNat := fun e => h e.symm
        have hlt : b.toNat < a.toNat := Nat.lt_of_le_of_ne hge (fun e => h e.symm)
        exact Or.inr (by simp [charsLe, hne, hlt])

theorem charsLe_antisymm : ∀ {a b : List Char},
    charsLe a b = true → charsLe b a = true → a = b
  | [], [], _, _ => rfl
  | [], _ :: _, _, h2 => by simp [charsLe] at h2
  | _ :: _, [], h1, _ => by simp [charsLe] at h1
  | a :: as, b :: bs, h1, h2 => by
    by_cases h : a.toNat = b.toNat
    · have hab : a = b := charToNat_inj h
      subst hab
      simp only [charsLe, if_pos rfl] at h1 h2
      rw [charsLe_antisymm h1 h2]
    · have hne : b.toNat ≠ a.toNat := fun e => h e.symm
      simp only [charsLe, if_neg h, decide_eq_true_eq] at h1
      simp only [charsLe, if_neg hne, decide_eq_true_eq] at h2
      omega

theorem charsLe_trans : ∀ {a b c : List Char},
    charsLe a b = true → charsLe b c = true → charsLe a c = true
  | [], _, _, _, _ => rfl
  | _ :: _, [], _, h1, _ => by simp [charsLe] at h1
  | _ :: _, _ :: _, [], _, h2 => by simp [charsLe] at h2
  | a :: as, b :: bs, c :: cs, h1, h2 => by
    by_cases hab : a.toNat = b.toNat <;> by_cases hbc : b.toNat = c.toNat
    · simp only [charsLe, if_pos hab] at h1
      simp only [charsLe, if_pos hbc] at h2
      simp only [charsLe, if_pos (hab.trans hbc)]
      exact charsLe_trans h1 h2
    · simp only [charsLe, if_neg hbc, decide_eq_true_eq] at h2
      have : a.toNat < c.toNat := by omega
      simp [charsLe, Nat.ne_of_lt this, this]
    · simp only [charsLe, if_neg hab, decide_eq_true_eq] at h1
      have : a.toNat < c.toNat := by omega
      simp [charsLe, Nat.ne_of_lt this, this]
    · simp only [charsLe, if_neg hab, decide_eq_true_eq] at h1
      simp only [charsLe, if_neg hbc, decide_eq_true_eq] at h2
      have : a.toNat < c.toNat := by omega
      simp [charsLe, Nat.ne_of_lt this, this]

instance : IsAntisymm String StrLe :=
  ⟨fun _ _ h1 h2 => String.ext (charsLe_antisymm h1 h2)⟩

theorem strLe_total (s t : String) : StrLe s t ∨ StrLe t s := charsLe_total s.data t.data

theorem strLe_trans {s t u : String} (h1 : StrLe s t) (h2 : StrLe t u) : StrLe s u :=
  charsLe_trans h1 h2

theorem insertSorted_perm (s : String) (l : List String) :
    (insertSorted s l).Perm (s :: l) := by
  induction l with
  | nil => exact List.Perm.refl _
  | cons t r ih =>
    by_cases h : pyStrLe s t = true
    · simp only [insertSorted, if_pos h]
      exact List.Perm.refl _
    · simp only [insertSorted, if_neg h]
      exact (ih.cons t).trans (List.Perm.swap s t r)

theorem sortStrings_perm (l : List String) : (sortStrings l).Perm l := by
  induction l with
  | nil => exact List.Perm.refl _
  | cons s r ih =>
    have : sortStrings (s :: r) = insertSorted s (sortStrings r) := rfl
    rw [this]
    exact (insertSorted_perm s (sortStrings r)).trans (ih.cons s)

theorem insertSorted_pairwise {s : String} {l : List String}
    (h : List.Pairwise StrLe l) : List.Pairwise StrLe (insertSorted s l) := by
  induction l with
  | nil => exact List.pairwise_singleton _ _
  | cons t r ih =>
    rcases List.pairwise_cons.mp h with ⟨ht, hr⟩
    by_cases hst : pyStrLe s t = true
    · simp only [insertSorted, if_pos hst]
      refine List.Pairwise.cons ?_ h
      intro x hx
      rcases List.mem_cons.mp hx with rfl | hx
      · exact hst
      · exact strLe_trans hst (ht x hx)
    · simp only [insertSorted, if_neg hst]
      refine List.Pairwise.cons ?_ (ih hr)
      intro x hx
      have hx2 : x ∈ s :: r := (insertSorted_perm s r).mem_iff.mp hx
      rcases List.mem_cons.mp hx2 with rfl | hx3
      · rcases strLe_total x t with hts | hts
        · exact absurd hts hst
        · exact hts
      · exact ht x hx3

theorem sortStrings_pairwise (l : List String) : List.Pairwise StrLe (sortStrings l) := by
  induction l with
  | nil => exact List.Pairwise.nil
  | cons s r ih => exact insertSorted_pairwise ih

theorem sortStrings_eq_of_perm {l₁ l₂ : List String} (h : l₁.Perm l₂) :
    sortStrings l₁ = sortStrings l₂ :=
  List.eq_of_perm_of_sorted
    ((sortStrings_perm l₁).trans (h.trans (sortStrings_perm l₂).symm))
    (sortStrings_pairwise l₁) (sortStrings_pairwise l₂)

/-! ### Dictionary lemmas -/

theorem alookup_dinsert {α : Type} (k k' : String) (v : α) (m : List (String × α)) :
    alookup k (dinsert k' v m) = if k' = k then some v else alookup k m := by
  induction m with
  | nil => rfl
  | cons p t ih =>
    obtain ⟨k₀, v₀⟩ := p
    by_cases h0 : k₀ = k'
    · subst h0
      by_cases h1 : k₀ = k
      · simp [dinsert, alookup, h1]
      · simp [dinsert, alookup, h1]
    · by_cases h1 : k₀ = k
      · subst h1
        have hne : ¬ k' = k₀ := fun e => h0 e.symm
        simp [dinsert, alookup, h0, hne]
      · simp [dinsert, alookup, h0, h1, ih]

theorem alookup_foldl_dinsert {α β : Type} (keyf : β → String) (valf : β → α)
    (l : List β) (acc : List (String × α)) (k : String) :
    alookup k (l.foldl (fun m r => dinsert (keyf r) (valf r) m) acc)
      = (match l.reverse.find? (fun r => keyf r == k) with
         | some r => some (valf r)
         | none => alookup k acc) := by
  induction l generalizing acc with
  | nil => simp
  | cons r rest ih =>
    simp only [List.foldl_cons, List.reverse_cons]
    rw [ih, List.find?_append]
    cases hf : rest.reverse.find? (fun r => keyf r == k) with
    | some r' => simp [hf, Option.or]
    | none =>
      simp only [hf, Option.or]
      by_cases h : keyf r = k
      · simp [List.find?, h, alookup_dinsert]
      · have : (keyf r == k) = false := by simp [h]
        simp [List.find?, this, alookup_dinsert, h]

theorem find?_keyed_eq_of_perm {β : Type} (keyf : β → String) {l₁ l₂ : List β}
    (hperm : l₁.Perm l₂) (hnd : (l₁.map keyf).Nodup) (k : String) :
    l₁.find? (fun r => keyf r == k) = l₂.find? (fun r => keyf r == k) := by
  cases h₁ : l₁.find? (fun r => keyf r == k) with
  | some r =>
    have hm : r ∈ l₁ := List.mem_of_find?_eq_some h₁
    have hk : keyf r = k := by simpa using List.find?_some h₁
    cases h₂ : l₂.find? (fun r => keyf r == k) with
    | none =>
      rw [List.find?_eq_none] at h₂
      exact absurd (by simpa using hk) (h₂ r (hperm.mem_iff.mp hm))
    | some r' =>
      have hm' : r' ∈ l₁ := hperm.mem_iff.mpr (List.mem_of_find?_eq_some h₂)
      have hk' : keyf r' = k := by simpa using List.find?_some h₂
      rw [List.inj_on_of_nodup_map hnd hm hm' (hk.trans hk'.symm)]
  | none =>
    rw [List.find?_eq_none] at h₁
    symm
    rw [List.find?_eq_none]
    intro x hx
    exact h₁ x (hperm.mem_iff.mpr hx)

theorem alookup_eq_find? {α : Type} (k : String) (l : List (String × α)) :
    alookup k l = (l.find? (fun p => p.1 == k)).map Prod.snd := by
  induction l with
  | nil => rfl
  | cons p t ih =>
    obtain ⟨k₀, v₀⟩ := p
    by_cases h : k₀ = k
    · simp [alookup, h, List.find?]
    · have : (k₀ == k) = false := by simp [h]
      simp [alookup, h, List.find?, this, ih]

theorem alookup_eq_of_perm {α : Type} {l₁ l₂ : List (String × α)} (h : l₁.Perm l₂)
    (hnd : (l₁.map Prod.fst).Nodup) (k : String) : alookup k l₁ = alookup k l₂ := by
  rw [alookup_eq_find?, alookup_eq_find?, find?_keyed_eq_of_perm Prod.fst h hnd k]

theorem alookup_isSome_of_mem_keys {α : Type} {l : List (String × α)} {k : String}
    (h : k ∈ l.map Prod.fst) : (alookup k l).isSome = true := by
  induction l with
  | nil => simp at h
  | cons p t ih =>
    obtain ⟨k₀, v₀⟩ := p
    by_cases h0 : k₀ = k
    · simp [alookup, h0]
    · simp only [List.map_cons, List.mem_cons] at h
      rcases h with h | h
    
      · exact absurd h.symm h0
      · simp only [alookup, if_neg h0]
        exact ih h

/-! ### Reconciliation lemmas -/

theorem prepareGo_some_fst (pk : List String) :
    ∀ (ds : Dataset) (acc : List (String × String)) (t : Nat),
      (prepareGo (some pk) acc t ds).1
        = (rowsOf ds).foldl (fun m r => dinsert (rowKey pk r) (make_row_hash r) m) acc := by
  intro ds
  induction ds with
  | nil => intro acc t; rfl
  | cons df rest ih =>
    intro acc t
    have h1 : (prepareGo (some pk) acc t (df :: rest)).1
        = (prepareGo (some pk) (insertByPk pk acc df) (t + df.length) rest).1 := rfl
    rw [h1, ih]
    show (rowsOf rest).foldl _ (df.foldl _ acc) = _
    rw [← List.foldl_append]
    rfl

theorem prepare_some_alookup_eq (pk : List String) {A B : Dataset}
    (hperm : (rowsOf A).Perm (rowsOf B))
    (hnd : ((rowsOf A).map (rowKey pk)).Nodup) (k : String) :
    alookup k (prepare_pk_and_hash (some pk) A).1
      = alookup k (prepare_pk_and_hash (some pk) B).1 := by
  show alookup k (prepareGo (some pk) [] 0 A).1 = alookup k (prepareGo (some pk) [] 0 B).1
  rw [prepareGo_some_fst, prepareGo_some_fst,
    alookup_foldl_dinsert (rowKey pk) make_row_hash,
    alookup_foldl_dinsert (rowKey pk) make_row_hash]
  have hpermrev : (rowsOf A).reverse.Perm ((rowsOf B).reverse) :=
    (List.reverse_perm _).trans (hperm.trans (List.reverse_perm _).symm)
  have hndrev : ((rowsOf A).reverse.map (rowKey pk)).Nodup := by
    rw [List.map_reverse, List.nodup_reverse]
    exact hnd
  rw [find?_keyed_eq_of_perm (rowKey pk) hpermrev hndrev k]

theorem alookup_insertDigests_nil (df : Chunk) (k : String) :
    alookup k (insertDigests [] df)
      = if k ∈ df.map make_row_hash then some k else none := by
  show alookup k (df.foldl (fun m r => dinsert (make_row_hash r) (make_row_hash r) m) []) = _
  rw [alookup_foldl_dinsert make_row_hash make_row_hash]
  cases hf : df.reverse.find? (fun r => make_row_hash r == k) with
  | some r =>
    have hk : make_row_hash r = k := by simpa using List.find?_some hf
    have hm : r ∈ df := List.mem_reverse.mp (List.mem_of_find?_eq_some hf)
    have hmem : k ∈ df.map make_row_hash := by
      rw [← hk]; exact List.mem_map_of_mem make_row_hash hm
    rw [if_pos hmem]
    show some (make_row_hash r) = some k
    rw [hk]
  | none =>
    rw [List.find?_eq_none] at hf
    have hmem : k ∉ df.map make_row_hash := by
      intro hmem
      rcases List.mem_map.mp hmem with ⟨r, hr, hrk⟩
      exact hf r (List.mem_reverse.mpr hr) (by simpa using hrk)
    rw [if_neg hmem]
    rfl

theorem digest_maps_alookup_eq {ca cb : Chunk} (hperm : ca.Perm cb) (k : String) :
    alookup k (insertDigests [] ca) = alookup k (insertDigests [] cb) := by
  rw [alookup_insertDigests_nil, alookup_insertDigests_nil]
  by_cases hk : k ∈ ca.map make_row_hash
  · rw [if_pos hk, if_pos ((hperm.map make_row_hash).mem_iff.mp hk)]
  · rw [if_neg hk, if_neg (fun hh => hk ((hperm.map make_row_hash).mem_iff.mpr hh))]

theorem details_empty_of_alookup_eq {ma mb : List (String × String)}
    (h : ∀ k, alookup k ma = alookup k mb) :
    missingExact ma mb = [] ∧ extraExact ma mb = [] ∧ changedExact ma mb = [] := by
  refine ⟨?_, ?_, ?_⟩
  · unfold missingExact
    have he : (ma.map Prod.fst).filter (fun k => (alookup k mb).isNone) = [] := by
      rw [List.filter_eq_nil_iff]
      intro k hk
      have hs := alookup_isSome_of_mem_keys hk
      rw [h k] at hs
      simp [Option.isNone, Option.isSome] at hs ⊢
      cases hv : alookup k mb with
      | none => rw [hv] at hs; simp at hs
      | some v => simp
    rw [he]
    rfl
  · unfold extraExact
    have he : (mb.map Prod.fst).filter (fun k => (alookup k ma).isNone) = [] := by
      rw [List.filter_eq_nil_iff]
      intro k hk
      have hs := alookup_isSome_of_mem_keys hk
      rw [← h k] at hs
      cases hv : alookup k ma with
      | none => rw [hv] at hs; simp at hs
      | some v => simp
    rw [he]
    rfl
  · unfold changedExact
    rw [List.filter_eq_nil_iff]
    intro k _
    rw [h k]
    simp

theorem compare_datasets_empty_of_alookup_eq {A B : Dataset} {pkCols : Option (List String)}
    (h : ∀ k, alookup k (prepare_pk_and_hash pkCols A).1
        = alookup k (prepare_pk_and_hash pkCols B).1) :
    emptyRec (compare_datasets A B pkCols) := by
  obtain ⟨h1, h2, h3⟩ := details_empty_of_alookup_eq h
  unfold compare_datasets emptyRec
  simp only [h1, h2, h3]
  exact ⟨rfl, rfl, rfl, rfl, rfl, rfl⟩

theorem prepare_none_detect_some {c : Chunk} {pk : List String} (cs : Dataset)
    (h : candidate_pk_detection c = some pk) :
    prepare_pk_and_hash none (c :: cs) = prepare_pk_and_hash (some pk) (c :: cs) := by
  show prepareGo none [] 0 (c :: cs) = prepareGo (some pk) [] 0 (c :: cs)
  show (match candidate_pk_detection c with
    | none => prepareGo none (insertDigests [] c) (0 + c.length) cs
    | some pk => prepareGo (some pk) (insertByPk pk [] c) (0 + c.length) cs) = _
  rw [h]
  rfl

theorem prepare_none_detect_none {c : Chunk} (cs : Dataset)
    (h : candidate_pk_detection c = none) :
    prepare_pk_and_hash none (c :: cs)
      = prepareGo none (insertDigests [] c) c.length cs := by
  show (match candidate_pk_detection c with
    | none => prepareGo none (insertDigests [] c) (0 + c.length) cs
    | some pk => prepareGo (some pk) (insertByPk pk [] c) (0 + c.length) cs) = _
  rw [h]
  simp

theorem insertDigests_identity_keyed {acc : List (String × String)}
    (hacc : ∀ k v, alookup k acc = some v → v = k) (df : Chunk) :
    ∀ k v, alookup k (insertDigests acc df) = some v → v = k := by
  intro k v h
  unfold insertDigests at h
  rw [alookup_foldl_dinsert make_row_hash make_row_hash] at h
  cases hf : df.reverse.find? (fun r => make_row_hash r == k) with
  | some r =>
    rw [hf] at h
    have hk : make_row_hash r = k := by simpa using List.find?_some hf
    have hv : v = make_row_hash r := (Option.some.inj h).symm
    rw [hv, hk]
  | none =>
    rw [hf] at h
    exact hacc k v h

theorem prepareGo_none_all_fail :
    ∀ (ds : Dataset) (acc : List (String × String)) (t : Nat),
      (∀ c ∈ ds, candidate_pk_detection c = none) →
      (∀ k v, alookup k acc = some v → v = k) →
      ∀ k v, alookup k (prepareGo none acc t ds).1 = some v → v = k := by
  intro ds
  induction ds with
  | nil => intro acc t _ hacc; exact hacc
  | cons df rest ih =>
    intro acc t hfail hacc
    have hdf := hfail df (List.mem_cons_self df rest)
    have hstep : prepareGo none acc t (df :: rest)
        = prepareGo none (insertDigests acc df) (t + df.length) rest := by
      show (match candidate_pk_detection df with
        | none => prepareGo none (insertDigests acc df) (t + df.length) rest
        | some pk => prepareGo (some pk) (insertByPk pk acc df) (t + df.length) rest) = _
      rw [hdf]
    rw [hstep]
    exact ih _ _ (fun c hc => hfail c (List.mem_cons_of_mem _ hc))
      (insertDigests_identity_keyed hacc df)

theorem qmax_qone_num_pos (m : PyFloat) : 0 < (qmax m qone).num := by
  unfold qmax
  by_cases h : qleb qone m = true
  · rw [if_pos h]
    unfold qleb qone qofInt PyFloat.den at h
    simp only [decide_eq_true_eq] at h
    omega
  · rw [if_neg h]
    show (0 : Int) < 1
    omega

/-! ### Totality of the value comparator -/

theorem numeric_branch_ok (x y tol : PyFloat) (mism : Bool) :
    ∃ r, (qdivGuard (qabs (qsub x y)) (qmax (qmax (qabs x) (qabs y)) qone)).bind
      (fun rel =>
        if qleb rel tol then Except.ok (⟨true, mism, "numeric_tol"⟩ : CompareResult)
        else Except.ok ⟨false, mism, "numeric_rel=" ++ fmt4 (qsub qone rel)⟩)
      = Except.ok r := by
  have hpos := qmax_qone_num_pos (qmax (qabs x) (qabs y))
  unfold qdivGuard
  rw [if_neg (by omega : ¬ (qmax (qmax (qabs x) (qabs y)) qone).num = 0)]
  show ∃ r, (if qleb (qdivRaw (qabs (qsub x y)) (qmax (qmax (qabs x) (qabs y)) qone)) tol
      then Except.ok (⟨true, mism, "numeric_tol"⟩ : CompareResult)
      else Except.ok ⟨false, mism, "numeric_rel=" ++ fmt4 (qsub qone (qdivRaw (qabs (qsub x y))
        (qmax (qmax (qabs x) (qabs y)) qone)))⟩) = Except.ok r
  split
  · exact ⟨_, rfl⟩
  · exact ⟨_, rfl⟩

theorem compare_values_never_raises (e a : Value) (tol : PyFloat) :
    ∃ r, compare_values_exc e a tol = Except.ok r := by
  unfold compare_values_exc
  dsimp only
  repeat' split
  all_goals first
    | exact ⟨_, rfl⟩
    | exact numeric_branch_ok _ _ _ _

theorem reconcile_empty_explicit {A B : Dataset} (pk : List String)
    (hperm : (rowsOf A).Perm (rowsOf B))
    (hnd : ((rowsOf A).map (rowKey pk)).Nodup) :
    emptyRec (compare_datasets A B (some pk)) :=
  compare_datasets_empty_of_alookup_eq (fun k => prepare_some_alookup_eq pk hperm hnd k)

theorem reconcile_empty_auto_detected {ca cb : Chunk} {A' B' : Dataset} {pk : List String}
    (hca : candidate_pk_detection ca = some pk) (hcb : candidate_pk_detection cb = some pk)
    (hperm : (rowsOf (ca :: A')).Perm (rowsOf (cb :: B')))
    (hnd : ((rowsOf (ca :: A')).map (rowKey pk)).Nodup) :
    emptyRec (compare_datasets (ca :: A') (cb :: B') none) := by
  apply compare_datasets_empty_of_alookup_eq
  intro k
  rw [prepare_none_detect_some A' hca, prepare_none_detect_some B' hcb]
  exact prepare_some_alookup_eq pk hperm hnd k

theorem reconcile_empty_degenerate {ca cb : Chunk}
    (hca : candidate_pk_detection ca = none) (hcb : candidate_pk_detection cb = none)
    (hperm : ca.Perm cb) :
    emptyRec (compare_datasets [ca] [cb] none) := by
  apply compare_datasets_empty_of_alookup_eq
  intro k
  have h1 : prepare_pk_and_hash none [ca] = (insertDigests [] ca, ca.length) := by
    rw [prepare_none_detect_none [] hca]; rfl
  have h2 : prepare_pk_and_hash none [cb] = (insertDigests [] cb, cb.length) := by
    rw [prepare_none_detect_none [] hcb]; rfl
  rw [h1, h2]
  exact digest_maps_alookup_eq hperm k

/-! ### Claims -/

/-- C3: if datasets A and B contain the identical set of rows under the same
key construction, reconciliation reports no missing, extra or changed keys —
for an explicit primary key (first conjunct), for a key auto-detected from the
first chunk of each dataset (second conjunct), and for the degenerate
digest-As-key fallback when detection fails (third conjunct, one-chunk
datasets).  "Identical set of rows" is formalised as a permutation of the
row streams, with the claim's presupposed well-keyedness (key uniqueness,
identical detection outcome) as hypotheses. -/
theorem c3_identical_rows_reconcile_empty :
    (∀ (A B : Dataset) (pk : List String),
        (rowsOf A).Perm (rowsOf B) → ((rowsOf A).map (rowKey pk)).Nodup →
        emptyRec (compare_datasets A B (some pk)))
    ∧ (∀ (ca cb : Chunk) (A' B' : Dataset) (pk : List String),
        candidate_pk_detection ca = some pk → candidate_pk_detection cb = some pk →
        (rowsOf (ca :: A')).Perm (rowsOf (cb :: B')) →
        ((rowsOf (ca :: A')).map (rowKey pk)).Nodup →
        emptyRec (compare_datasets (ca :: A') (cb :: B') none))
    ∧ (∀ (ca cb : Chunk),
        candidate_pk_detection ca = none → candidate_pk_detection cb = none →
        ca.Perm cb → emptyRec (compare_datasets [ca] [cb] none)) :=
  ⟨fun _ _ pk h1 h2 => reconcile_empty_explicit pk h1 h2,
   fun _ _ _ _ _ h1 h2 h3 h4 => reconcile_empty_auto_detected h1 h2 h3 h4,
   fun _ _ h1 h2 h3 => reconcile_empty_degenerate h1 h2 h3⟩

/-- Witness for C3: concrete instantiations of all three conjuncts — a
permuted copy of the §8 dataset under the explicit key, a dataset whose key
is auto-detected, and the duplicate-row dataset on which detection fails. -/
theorem c3_identical_rows_reconcile_empty_witness :
    emptyRec (compare_datasets exampleA [[rowIdName 2 "Bob", rowIdName 1 "Alice"]] (some ["id"]))
    ∧ emptyRec (compare_datasets [laterChunk] [laterChunk] none)
    ∧ emptyRec (compare_datasets [noKeyChunk] [noKeyChunk] none) :=
  ⟨c3_identical_rows_reconcile_empty.1 exampleA [[rowIdName 2 "Bob", rowIdName 1 "Alice"]]
      ["id"] (by decide) (by decide),
   c3_identical_rows_reconcile_empty.2.1 laterChunk laterChunk [] [] ["a"]
      (by decide) (by decide) (by decide) (by decide),
   c3_identical_rows_reconcile_empty.2.2 noKeyChunk noKeyChunk
      (by decide) (by decide) (by decide)⟩

/-- C4: the row digest is invariant under permutation of the row's columns —
for any two rows with the same column→value bindings (no duplicate column
names, as for every dict row) in any two orders, `_make_row_hash` agrees. -/
theorem c4_digest_invariant_under_column_permutation (r₁ r₂ : Row)
    (hperm : r₁.Perm r₂) (hnd : (r₁.map Prod.fst).Nodup) :
    make_row_hash r₁ = make_row_hash r₂ := by
  unfold make_row_hash
  congr 1
  unfold serializeRow
  have hcols : sortStrings (rowCols r₁) = sortStrings (rowCols r₂) :=
    sortStrings_eq_of_perm (hperm.map Prod.fst)
  rw [← hcols]
  congr 1
  apply List.map_congr_left
  intro k _
  rw [alookup_eq_of_perm hperm hnd k]

/-- Witness for C4: a concrete two-column row and its reversal digest
identically. -/
theorem c4_digest_invariant_under_column_permutation_witness :
    make_row_hash [("b", .vint 1), ("a", .vstr "x")]
      = make_row_hash [("a", .vstr "x"), ("b", .vint 1)] :=
  c4_digest_invariant_under_column_permutation _ _ (by decide) (by decide)

/-- C9: `compare_values` terminates normally on every pair of values and
every tolerance — the `Except`-explicit embedding (whose only fault point is
the relative-error division, guarded by the `max(..., 1.0)` denominator)
always returns `ok`, and the pure function is its value. -/
theorem c9_compare_values_never_raises (e a : Value) (tol : PyFloat) :
    compare_values_exc e a tol = Except.ok (compare_values e a tol) := by
  obtain ⟨r, hr⟩ := compare_values_never_raises e a tol
  rw [hr]
  unfold compare_values
  rw [hr]

/-- C10: a changed key absent from either re-scanned row map is skipped by the
cell-diff loop: deleting it from the changed-key list leaves the output for
every other key untouched (in particular no error is raised for it). -/
theorem c10_cell_diff_skips_missing_keys (ma mb : List (String × Row)) (k : String)
    (l₁ l₂ : List String) (h : alookup k ma = none ∨ alookup k mb = none) :
    processChangedKeys ma mb (l₁ ++ k :: l₂) = processChangedKeys ma mb (l₁ ++ l₂) := by
  induction l₁ with
  | nil =>
    simp only [List.nil_append]
    rcases h with h | h
    · simp [processChangedKeys, h]
    · cases hma : alookup k ma with
      | none => simp [processChangedKeys, hma]
      | some ra => simp [processChangedKeys, hma, h]
  | cons p rest ih =>
    simp only [List.cons_append]
    cases hpa : alookup p ma with
    | none => simp [processChangedKeys, hpa, ih]
    | some ra =>
      cases hpb : alookup p mb with
      | none => simp [processChangedKeys, hpa, hpb, ih]
      | some rb =>
        simp only [processChangedKeys, hpa, hpb]
        split
        · exact ih
        · rw [ih]

/-- Witness for C10: the key `"2"` is absent from both one-row maps, so the
loop over `["2", "1"]` produces the same output as over `["1"]`. -/
theorem c10_cell_diff_skips_missing_keys_witness :
    processChangedKeys [("1", [("a", Value.vint 1)])] [("1", [("a", Value.vint 2)])]
        (["2"] ++ ["1"])
      = processChangedKeys [("1", [("a", Value.vint 1)])] [("1", [("a", Value.vint 2)])] ["1"] :=
  c10_cell_diff_skips_missing_keys _ _ "2" [] ["1"] (by decide)

/-- C1 counterexample: in the §8 end-to-end example, `"Bob"` vs `"bob"` is a
match under `ValueEquivalence.compare`, and reconciliation flags key `"2"` as
changed — yet `compare_cells` still reports the `name` column as a
difference (a non-empty differences list), because its inner loop uses raw
`!=`, not the tolerant comparator. -/
theorem c1_cell_diff_counterexample :
    (compare_values (.vstr "Bob") (.vstr "bob") defaultTol).isMatch = true
    ∧ (compare_datasets exampleA exampleB (some ["id"])).details.changed = ["2"]
    ∧ compare_cells exampleA exampleB ["id"] ["2"]
        = [("2", [⟨"name", .vstr "Bob", .vstr "bob"⟩])] :=
  ⟨by decide, by decide, by decide⟩

/-- C1 amended: the cell-diff stage compares columns with raw Python
equality — every emitted difference genuinely fails `==` (first conjunct), so
tolerant-equivalent values like `"Bob"`/`"bob"` are still reported: the §8
cell diff for key `"2"` is `[{column: "name", a: "Bob", b: "bob"}]`, not
empty (second conjunct). -/
theorem c1_cell_diff_raw_equality :
    (∀ (ra rb : Row) (d : CellDifference), d ∈ cellRowDiffs ra rb → pyEq d.a d.b = false)
    ∧ compare_cells exampleA exampleB ["id"] ["2"]
        = [("2", [⟨"name", .vstr "Bob", .vstr "bob"⟩])] := by
  constructor
  · intro ra rb d hd
    unfold cellRowDiffs at hd
    rcases List.mem_filterMap.mp hd with ⟨col, hcol, heq⟩
    dsimp only at heq
    split at heq
    · exact absurd heq (by simp)
    · next h =>
      rw [← Option.some.inj heq]
      simpa using h
  · decide

/-- Witness for the amended C1: the reported `"Bob"` vs `"bob"` difference
indeed fails raw equality. -/
theorem c1_cell_diff_raw_equality_witness :
    pyEq (Value.vstr "Bob") (Value.vstr "bob") = false :=
  c1_cell_diff_raw_equality.1 [("name", .vstr "Bob")] [("name", .vstr "bob")]
    ⟨"name", .vstr "Bob", .vstr "bob"⟩ (by decide)

/-- C2 counterexample: `compare("30", 30)` does *not* flag a type mismatch
(both sides classify as `number`), and its match kind is `"numeric_tol"`,
not `"exact"`/`"coerced_exact"`. -/
theorem c2_compare_30_counterexample :
    (compare_values (.vstr "30") (.vint 30) defaultTol).hasTypeMismatch = false
    ∧ (compare_values (.vstr "30") (.vint 30) defaultTol).matchKind = "numeric_tol" :=
  ⟨by decide, by decide⟩

/-- C2 amended: `compare("30", 30)` returns `(true, false, "numeric_tol")` —
the value match succeeds, but both sides classify as `number` (the string
parses numerically), so no type mismatch is flagged, and the match is found
by the numeric-tolerance path (raw `==` fails for `"30" == 30`), not the
exact path. -/
theorem c2_compare_30_numeric_tol :
    compare_values (.vstr "30") (.vint 30) defaultTol = ⟨true, false, "numeric_tol"⟩
    ∧ typeClass (.vstr "30") = "number" ∧ typeClass (.vint 30) = "number"
    ∧ pyEq (.vstr "30") (.vint 30) = false :=
  ⟨by decide, by decide, by decide, by decide⟩

/-- C5 counterexample: with changed keys `"z"` and `"a"` (inserted in that
order), the returned `changed` detail list is `["z", "a"]` — the insertion
order of map A — not the sorted-order truncation `["a", "z"]` that the claim
prescribes (the source sorts only `missing_in_b`/`extra_in_b`, never
`changed`, whose CPython set-iteration order is unspecified). -/
theorem c5_changed_not_sorted_counterexample :
    (compare_datasets unsortedA unsortedB (some ["k"])).details.changed = ["z", "a"]
    ∧ specSortedChanged unsortedA unsortedB (some ["k"]) = ["a", "z"]
    ∧ (compare_datasets unsortedA unsortedB (some ["k"])).details.changed
        ≠ (specSortedChanged unsortedA unsortedB (some ["k"])).take 100 :=
  ⟨by decide, by decide, by decide⟩

/-- C5 amended: the detail lists are 100-entry truncations with exact
untruncated summary counts; `missing_in_b` and `extra_in_b` are truncations
of the *sorted* classifications (and are themselves sorted), while `changed`
is a truncation of the classification in unspecified set order (modelled as
map-A insertion order), not sorted order. -/
theorem c5_details_truncation_shape (A B : Dataset) (pkCols : Option (List String)) :
    (compare_datasets A B pkCols).details.missing_in_b
        = (missingExact (prepare_pk_and_hash pkCols A).1 (prepare_pk_and_hash pkCols B).1).take 100
    ∧ (compare_datasets A B pkCols).details.extra_in_b
        = (extraExact (prepare_pk_and_hash pkCols A).1 (prepare_pk_and_hash pkCols B).1).take 100
    ∧ (compare_datasets A B pkCols).details.changed
        = (changedExact (prepare_pk_and_hash pkCols A).1 (prepare_pk_and_hash pkCols B).1).take 100
    ∧ (compare_datasets A B pkCols).summary.missing_in_b
        = (missingExact (prepare_pk_and_hash pkCols A).1 (prepare_pk_and_hash pkCols B).1).length
    ∧ (compare_datasets A B pkCols).summary.extra_in_b
        = (extraExact (prepare_pk_and_hash pkCols A).1 (prepare_pk_and_hash pkCols B).1).length
    ∧ (compare_datasets A B pkCols).summary.changed
        = (changedExact (prepare_pk_and_hash pkCols A).1 (prepare_pk_and_hash pkCols B).1).length
    ∧ List.Pairwise StrLe (compare_datasets A B pkCols).details.missing_in_b
    ∧ List.Pairwise StrLe (compare_datasets A B pkCols).details.extra_in_b := by
  refine ⟨rfl, rfl, rfl, rfl, rfl, rfl, ?_, ?_⟩
  · exact List.Pairwise.sublist (List.take_sublist 100 _) (sortStrings_pairwise _)
  · exact List.Pairwise.sublist (List.take_sublist 100 _) (sortStrings_pairwise _)

/-- C6 counterexample: the first chunk of `twoPhaseData` admits no candidate
key, yet detection *is* re-attempted on the second chunk (where it finds
`["a"]`), so the mapping ends up holding the pk-keyed entry `"1"` whose value
is a row digest — not `"1"` itself — contradicting "every row of the dataset
(all chunks) is keyed by its own digest" and "detection is not re-attempted
on later chunks". -/
theorem c6_redetection_counterexample :
    candidate_pk_detection noKeyChunk = none
    ∧ candidate_pk_detection laterChunk = some ["a"]
    ∧ (alookup "1" (prepare_pk_and_hash none twoPhaseData).1).isSome = true
    ∧ alookup "1" (prepare_pk_and_hash none twoPhaseData).1 ≠ some "1" :=
  ⟨by decide, by decide, by decide, by decide⟩

/-- C6 amended: detection runs per chunk until it succeeds.  If the first
chunk yields a candidate key, that key is installed and used for the whole
dataset exactly as if it had been passed explicitly (first conjunct — in
particular detection is not re-attempted after a success).  Rows are keyed by
their own digest only for chunks on which detection failed; the whole dataset
is digest-keyed only when detection fails on *every* chunk (second
conjunct). -/
theorem c6_detection_until_success :
    (∀ (c : Chunk) (cs : Dataset) (pk : List String),
        candidate_pk_detection c = some pk →
        prepare_pk_and_hash none (c :: cs) = prepare_pk_and_hash (some pk) (c :: cs))
    ∧ (∀ ds : Dataset, (∀ c ∈ ds, candidate_pk_detection c = none) →
        ∀ k v, alookup k (prepare_pk_and_hash none ds).1 = some v → v = k) :=
  ⟨fun _ cs _ h => prepare_none_detect_some cs h,
   fun ds h => prepareGo_none_all_fail ds [] 0 h (fun _ _ hh => nomatch hh)⟩

/-- Witness for the amended C6: a successful first-chunk detection makes the
auto-keyed run coincide with the explicit `["a"]` run, and on the
detection-defeating dataset the digest of its row maps to itself. -/
theorem c6_detection_until_success_witness :
    prepare_pk_and_hash none (laterChunk :: [noKeyChunk])
        = prepare_pk_and_hash (some ["a"]) (laterChunk :: [noKeyChunk])
    ∧ make_row_hash dupRow = make_row_hash dupRow :=
  ⟨c6_detection_until_success.1 laterChunk [noKeyChunk] ["a"] (by decide),
   c6_detection_until_success.2 [noKeyChunk] (by decide) (make_row_hash dupRow)
     (make_row_hash dupRow) (by decide)⟩

/-- C7 counterexample: column `x` exists only on the B side with a value
(`5`) that matches nothing on the A side, yet `compare_cells` reports no
difference at all — the loop iterates `row_a.keys()` only, not the union of
the two rows' columns. -/
theorem c7_union_columns_counterexample :
    alookup "x" c7RowB = some (.vint 5)
    ∧ ("x" ∈ c7RowA.map Prod.fst → False)
    ∧ compare_cells [[c7RowA]] [[c7RowB]] ["id"] ["1"] = [] :=
  ⟨by decide, by decide, by decide⟩

/-- C7 amended: the set of columns examined by the cell-diff stage is exactly
the A-side row's key set — every emitted difference's column is a column of
the A-side row, so columns present only in the B-side row are skipped. -/
theorem c7_columns_come_from_a_side (ra rb : Row) (d : CellDifference)
    (hd : d ∈ cellRowDiffs ra rb) : d.column ∈ ra.map Prod.fst := by
  unfold cellRowDiffs at hd
  rcases List.mem_filterMap.mp hd with ⟨col, hcol, heq⟩
  dsimp only at heq
  split at heq
  · exact absurd heq (by simp)
  · rw [← Option.some.inj heq]
    exact hcol

/-- Witness for the amended C7. -/
theorem c7_columns_come_from_a_side_witness :
    ("a" : String) ∈ ([("a", Value.vint 1)] : Row).map Prod.fst :=
  c7_columns_come_from_a_side [("a", .vint 1)] [("a", .vint 2)]
    ⟨"a", .vint 1, .vint 2⟩ (by decide)

/-! ### C8 : nullability drift severity -/

theorem stringFindings_no_null_code (a b : NormColumn) :
    (stringFindings a b).filter (fun f => f.code == "NULLABILITY_CHANGE") = [] := by
  unfold stringFindings
  repeat' split
  all_goals simp [List.filter]

theorem decimalFindings_no_null_code (a b : NormColumn) :
    (decimalFindings a b).filter (fun f => f.code == "NULLABILITY_CHANGE") = [] := by
  unfold decimalFindings
  repeat' split
  all_goals simp [List.filter]

theorem intFindings_no_null_code (a b : NormColumn) :
    (intFindings a b).filter (fun f => f.code == "NULLABILITY_CHANGE") = [] := by
  unfold intFindings
  repeat' split
  all_goals simp [List.filter]

theorem tzFindings_no_null_code (a b : NormColumn) :
    (tzFindings a b).filter (fun f => f.code == "NULLABILITY_CHANGE") = [] := by
  unfold tzFindings
  repeat' split
  all_goals simp [List.filter]

theorem nullabilityFindings_filter {a b : NormColumn} (hne : a.nullable ≠ b.nullable) :
    (nullabilityFindings a b).filter (fun f => f.code == "NULLABILITY_CHANGE")
      = nullabilityFindings a b := by
  unfold nullabilityFindings
  rw [if_pos hne]
  simp [List.filter]

/-- C8 amended: for a shared column with equal canonical types and differing
nullable flags, `_compare_columns` emits exactly one `NULLABILITY_CHANGE`
finding, whose severity is `error` exactly when the source flag is *truthy*
(true or the string `"unknown"`) and the destination flag is `false` —
`"unknown" → false` therefore yields an error, not a warning, because the
non-empty string `"unknown"` is truthy in `a["nullable"] and not
b["nullable"]`; every other change yields a warning. -/
theorem c8_nullability_severity (a b : NormColumn) (htype : a.type = b.type)
    (hnull : a.nullable ≠ b.nullable) :
    (compare_columns a b).filter (fun f => f.code == "NULLABILITY_CHANGE")
      = [⟨if a.nullable ≠ NullTri.fls ∧ b.nullable = NullTri.fls then "error" else "warning",
          "NULLABILITY_CHANGE",
          a.name ++ " nullability " ++ triStr a.nullable ++ " -> " ++ triStr b.nullable,
          a.name⟩] := by
  unfold compare_columns
  rw [if_neg (fun hh => hh htype)]
  rw [List.filter_append, List.filter_append, List.filter_append, List.filter_append,
    stringFindings_no_null_code, decimalFindings_no_null_code, intFindings_no_null_code,
    tzFindings_no_null_code, nullabilityFindings_filter hnull]
  simp only [List.append_nil]
  have hsev : (if triTruthy a.nullable && !triTruthy b.nullable then "error" else "warning")
      = (if a.nullable ≠ NullTri.fls ∧ b.nullable = NullTri.fls then "error"
         else "warning") := by
    cases a.nullable <;> cases b.nullable <;> simp [triTruthy]
  unfold nullabilityFindings
  rw [if_pos hnull, hsev]

/-- C8 counterexample: an `unknown → false` nullability change — which is
neither `true → false` nor covered by "warning for every other change" per
the claim — is emitted with severity `error`. -/
theorem c8_unknown_to_false_is_error :
    compare_columns srcColUnknown dstColFalse
      = [⟨"error", "NULLABILITY_CHANGE", "c nullability unknown -> False", "c"⟩] := by
  decide

/-- Witness for the amended C8, at the `unknown → false` column pair. -/
theorem c8_nullability_severity_witness :
    (compare_columns srcColUnknown dstColFalse).filter
        (fun f => f.code == "NULLABILITY_CHANGE")
      = [⟨"error", "NULLABILITY_CHANGE", "c nullability unknown -> False", "c"⟩] :=
  (c8_nullability_severity srcColUnknown dstColFalse rfl (by decide)).trans (by decide)
